import Mathlib

/-!
Verification of the go-thumbnails thumbnail pipeline.

Shallow embedding of the Go sources of github.com/drummonds/go-thumbnails:
pixel rasters are modelled as a pair of dimensions together with a pixel
lookup function, byte buffers as lists of naturals, machine integers as
Nat/Int (with the Go truncating division written explicitly), and fallible
operations as `Except String`.  External collaborators (the CatmullRom
interpolation kernel of golang.org/x/image/draw, the basicfont glyph
rasteriser, the format decoder libraries and the filesystem) are taken as
parameters, exactly at the boundaries where the Go code calls into them.
-/

set_option maxRecDepth 10000

namespace Thumbs

/-- RGBA colour with one byte per channel, as Go's `color.RGBA`. -/
structure RGBA where
  r : Nat
  g : Nat
  b : Nat
  a : Nat
deriving DecidableEq, Repr

/-- Go `color.White` (as written through `image.Uniform` into an RGBA raster). -/
def white : RGBA := ⟨255, 255, 255, 255⟩

/-- An in-memory raster: width, height and a pixel lookup.  Go image bounds
are normalised to `Min = (0,0)`; the Go code only ever constructs rasters
with `image.Rect(0, 0, w, h)`. -/
structure Img where
  w : Nat
  h : Nat
  pix : Int → Int → RGBA

/-- `image.NewRGBA(image.Rect(0,0,w,h))`: a zero-initialised buffer, i.e.
every pixel is transparent black. -/
def newRGBA (w h : Nat) : Img := ⟨w, h, fun _ _ => ⟨0, 0, 0, 0⟩⟩

/-- The double loop `for y in [y0,y1) { for x in [x0,x1) { img.Set(x,y,c) } }`
(or the equivalent `draw.Draw` with a `image.Uniform` source over that
rectangle).  `img.Set` is a no-op outside the image bounds, hence the
bounds guard. -/
def fillRect (img : Img) (x0 x1 y0 y1 : Int) (c : RGBA) : Img :=
  { img with pix := fun x y =>
      if x0 ≤ x ∧ x < x1 ∧ y0 ≤ y ∧ y < y1 ∧
         0 ≤ x ∧ x < (img.w : Int) ∧ 0 ≤ y ∧ y < (img.h : Int) then c
      else img.pix x y }

/-- A bounds-guarded per-pixel transform over a rectangle:
`for y in [y0,y1) { for x in [x0,x1) { if inBounds { img.Set(x,y,f(img.At(x,y))) } } }`. -/
def mapRect (img : Img) (x0 x1 y0 y1 : Int) (f : RGBA → RGBA) : Img :=
  { img with pix := fun x y =>
      if x0 ≤ x ∧ x < x1 ∧ y0 ≤ y ∧ y < y1 ∧
         0 ≤ x ∧ x < (img.w : Int) ∧ 0 ≤ y ∧ y < (img.h : Int) then f (img.pix x y)
      else img.pix x y }

/-- `draw.Draw(dst, image.Rect(x0, y0, x0+rw, y0+rh), src, src.Bounds().Min, draw.Src)`:
copy `src` (whose bounds are normalised to start at the origin) into `dst`
with its top-left corner at `(x0, y0)`; the written region is clipped to the
rectangle, to the source bounds and to the destination bounds. -/
def drawImageAt (dst : Img) (x0 y0 : Int) (src : Img) (rw rh : Nat) : Img :=
  { dst with pix := fun x y =>
      if x0 ≤ x ∧ x < x0 + (rw : Int) ∧ y0 ≤ y ∧ y < y0 + (rh : Int) ∧
         x - x0 < (src.w : Int) ∧ y - y0 < (src.h : Int) ∧
         0 ≤ x ∧ x < (dst.w : Int) ∧ 0 ≤ y ∧ y < (dst.h : Int) then
        src.pix (x - x0) (y - y0)
      else dst.pix x y }

/-- External library behaviour the pipeline calls into but does not define:
`scalePix src w h x y` is the pixel that `draw.CatmullRom.Scale` writes at
`(x, y)` when scaling `src` onto a fresh `w × h` canvas, and
`glyph text dx dy` tells whether `font.Drawer.DrawString` covers the pixel at
offset `(dx, dy)` from the drawer's dot when rendering `text` with
`basicfont.Face7x13`. -/
structure Libs where
  scalePix : Img → Nat → Nat → Int → Int → RGBA
  glyph : String → Int → Int → Bool

/-- `draw.CatmullRom.Scale(scaled, scaled.Bounds(), img, img.Bounds(), draw.Src, nil)`
where `scaled = image.NewRGBA(image.Rect(0, 0, w, h))`: a `w × h` raster whose
pixels come from the interpolation kernel. -/
def catmullScale (E : Libs) (src : Img) (w h : Nat) : Img :=
  ⟨w, h, fun x y => E.scalePix src w h x y⟩

/-- `font.Drawer{Dst: img, Src: image.NewUniform(c), Face: basicfont.Face7x13,
Dot: fixed.P(dotX, dotY)}.DrawString(text)`: paint colour `c` on every pixel
the face's glyphs cover, clipped to the destination bounds. -/
def drawString (E : Libs) (img : Img) (dotX dotY : Int) (text : String) (c : RGBA) : Img :=
  { img with pix := fun x y =>
      if (0 ≤ x ∧ x < (img.w : Int) ∧ 0 ≤ y ∧ y < (img.h : Int)) ∧
         E.glyph text (x - dotX) (y - dotY) = true then c
      else img.pix x y }

@[simp] lemma newRGBA_w (w h : Nat) : (newRGBA w h).w = w := rfl
@[simp] lemma newRGBA_h (w h : Nat) : (newRGBA w h).h = h := rfl
@[simp] lemma fillRect_w (img : Img) (a b c d : Int) (col : RGBA) :
    (fillRect img a b c d col).w = img.w := rfl
@[simp] lemma fillRect_h (img : Img) (a b c d : Int) (col : RGBA) :
    (fillRect img a b c d col).h = img.h := rfl
@[simp] lemma mapRect_w (img : Img) (a b c d : Int) (f : RGBA → RGBA) :
    (mapRect img a b c d f).w = img.w := rfl
@[simp] lemma mapRect_h (img : Img) (a b c d : Int) (f : RGBA → RGBA) :
    (mapRect img a b c d f).h = img.h := rfl
@[simp] lemma drawImageAt_w (dst : Img) (x0 y0 : Int) (src : Img) (rw rh : Nat) :
    (drawImageAt dst x0 y0 src rw rh).w = dst.w := rfl
@[simp] lemma drawImageAt_h (dst : Img) (x0 y0 : Int) (src : Img) (rw rh : Nat) :
    (drawImageAt dst x0 y0 src rw rh).h = dst.h := rfl
@[simp] lemma catmullScale_w (E : Libs) (src : Img) (w h : Nat) :
    (catmullScale E src w h).w = w := rfl
@[simp] lemma catmullScale_h (E : Libs) (src : Img) (w h : Nat) :
    (catmullScale E src w h).h = h := rfl
@[simp] lemma drawString_w (E : Libs) (img : Img) (dx dy : Int) (t : String) (c : RGBA) :
    (drawString E img dx dy t c).w = img.w := rfl
@[simp] lemma drawString_h (E : Libs) (img : Img) (dx dy : Int) (t : String) (c : RGBA) :
    (drawString E img dx dy t c).h = img.h := rfl

/-- Go `strings.Contains(s, sub)`: `sub` occurs contiguously inside `s`. -/
def goContains (s sub : String) : Bool :=
  s.data.tails.any (fun t => sub.data.isPrefixOf t)

/-- placeholder.go: display label and background colour for an error type. -/
structure placeholderInfo where
  label : String
  bg : RGBA
deriving DecidableEq, Repr

/-- placeholder.go `classifyError`, with the error value represented by its
`Error()` message string. -/
def classifyError (msg : String) : placeholderInfo :=
  if goContains msg "invalid password" then
    ⟨"Password Protected", ⟨200, 150, 0, 255⟩⟩   -- amber
  else if goContains msg "unsupported file format" then
    ⟨"Unsupported Format", ⟨130, 130, 130, 255⟩⟩ -- grey
  else if goContains msg "no such file" || goContains msg "not exist" then
    ⟨"File Not Found", ⟨80, 80, 80, 255⟩⟩        -- dark grey
  else
    ⟨"Error", ⟨180, 40, 40, 255⟩⟩                -- red

/-- placeholder.go `bgForLabel`. -/
def bgForLabel (label : String) : RGBA :=
  if label = "Password Protected" then ⟨200, 150, 0, 255⟩
  else if label = "Unsupported Format" then ⟨130, 130, 130, 255⟩
  else if label = "File Not Found" then ⟨80, 80, 80, 255⟩
  else ⟨180, 40, 40, 255⟩

/-- placeholder.go `drawCentredText`.  `font.MeasureString(basicfont.Face7x13, text).Ceil()`
is `7 * len(text)` (the face has a fixed 7-pixel advance) and
`face.Metrics().Ascent.Ceil()` is `11`; both are constants of the external
font library.  Integer division is Go's truncating division; both operands
of `size/2 + 11/2` are non-negative so `Int` division agrees. -/
def drawCentredText (E : Libs) (img : Img) (text : String) (size : Nat) : Img :=
  let textWidth : Int := 7 * text.length
  let x : Int := max (((size : Int) - textWidth) / 2) 2
  let y : Int := (size : Int) / 2 + 11 / 2
  drawString E img x y text white

/-- placeholder.go `ErrorPlaceholder`: a square `height × height` canvas
filled with the label's background colour, with the label drawn centred in
white. -/
def ErrorPlaceholder (E : Libs) (label : String) (height : Nat) : Img :=
  let size := height
  let img := newRGBA size size
  let img := fillRect img 0 (size : Int) 0 (size : Int) (bgForLabel label)
  drawCentredText E img label size

/-- Integer square root by counting up, with explicit fuel so that it is
structurally recursive (and hence evaluable); `isqrtGo n f a` walks `a`
upward while `(a+1)² ≤ n`. -/
def isqrtGo (n : Nat) : Nat → Nat → Nat
  | 0, a => a
  | f + 1, a => if (a + 1) * (a + 1) ≤ n then isqrtGo n f (a + 1) else a

/-- `⌊√n⌋` (shown below to agree with Mathlib's `Nat.sqrt`). -/
def isqrt (n : Nat) : Nat := isqrtGo n n 0

lemma isqrtGo_spec (n : Nat) : ∀ f a, a * a ≤ n →
    n < (a + f + 1) * (a + f + 1) →
    isqrtGo n f a * isqrtGo n f a ≤ n ∧
      n < (isqrtGo n f a + 1) * (isqrtGo n f a + 1) := by
  intro f
  induction f with
  | zero => intro a h1 h2; simpa [isqrtGo] using ⟨h1, by simpa using h2⟩
  | succ f ih =>
    intro a h1 h2
    by_cases h : (a + 1) * (a + 1) ≤ n
    · simpa [isqrtGo, h] using ih (a + 1) h (by convert h2 using 2 <;> omega)
    · simpa [isqrtGo, h] using ⟨h1, by omega⟩

lemma isqrt_spec (n : Nat) :
    isqrt n * isqrt n ≤ n ∧ n < (isqrt n + 1) * (isqrt n + 1) :=
  isqrtGo_spec n n 0 (by simp) (by nlinarith)

/-- `isqrt` agrees with Mathlib's integer square root. -/
lemma isqrt_eq_sqrt (n : Nat) : isqrt n = Nat.sqrt n :=
  Nat.eq_sqrt.mpr (isqrt_spec n)

/-- thumbnail.go `pageHeight`: `uint(math.Round(float64(width) * math.Sqrt2))`.
Since `√2` is irrational, `round(w·√2) = ⌊(⌊2w·√2⌋ + 1) / 2⌋` and
`⌊2w·√2⌋ = ⌊√(8w²)⌋`, which is how the exact rounding is computed here. -/
def pageHeight (width : Nat) : Nat := (isqrt (8 * width * width) + 1) / 2

/-- uniform.go `uniformHeight`: `uint(math.Round(float64(width) * 1.42))`.
For non-negative arguments `math.Round` rounds half away from zero, so the
result is `⌊(142·w + 50) / 100⌋`. -/
def uniformHeight (width : Nat) : Nat := (142 * width + 50) / 100

/-- Modelled from the spec: the package-level light-grey background colour
`bgColor` that uniform.go line 29 references.  Its defining declaration is
not among the provided sources; the spec (§4.3: "a light-grey background
colour (not pure white)") and the CHANGELOG v0.6.0 entry ("Change thumbnail
background from white to light grey (RGB 240,240,240)") fix its value. -/
def bgColor : RGBA := ⟨240, 240, 240, 255⟩

/-- `resizeToPage`: scale to the target width, then crop from the top or pad
at the top to a fixed `width × pageHeight(width)` canvas.  Translated from
src/unnamed/part_002 lines 14-43, except for the pad colour, which is
modelled from the spec: part_002 is the pre-v0.6.0 revision filling with
white, while the current revision (per CHANGELOG v0.6.0 and the spec §4.3)
fills with the package-level `bgColor`.  `scaledH` is
`int(float64(srcH) * float64(width) / float64(srcW))`, i.e. the truncated
quotient. -/
def resizeToPage (E : Libs) (img : Img) (width : Nat) : Img :=
  if img.w = 0 ∨ img.h = 0 then newRGBA width (pageHeight width)
  else
    let scaledH := img.h * width / img.w
    let scaled := catmullScale E img width scaledH
    let ph := pageHeight width
    let dst := fillRect (newRGBA width ph) 0 (width : Int) 0 (ph : Int) bgColor
    if scaledH ≥ ph then drawImageAt dst 0 0 scaled width ph
    else drawImageAt dst 0 0 scaled width scaledH

/-- Local colours of `drawPlusIndicator` (part_002 lines 93-94). -/
def plusBgColor : RGBA := ⟨240, 240, 240, 255⟩

def plusColor : RGBA := ⟨100, 100, 100, 255⟩

/-- part_002 `drawPlusIndicator(img, startX, height)`: paint a light-grey
tile of width `size = height` starting at `startX`, then a "+" made of a
vertical and a horizontal bar.  The Go loops over inclusive `dx`/`dy` ranges
`[-lineWidth/2, lineWidth/2]` become half-open rectangles
`[c - lineWidth/2, c + lineWidth/2 + 1)`. -/
def drawPlusIndicator (img : Img) (startX hgt : Int) : Img :=
  let size := hgt
  let img1 := fillRect img startX (startX + size) 0 hgt plusBgColor
  let centerX := startX + size / 2
  let lineWidth := max (size / 8) 2
  let img2 := fillRect img1 (centerX - lineWidth / 2) (centerX + lineWidth / 2 + 1)
      (size / 4) (3 * size / 4) plusColor
  let centerY := size / 2
  fillRect img2 (startX + size / 4) (startX + 3 * size / 4)
      (centerY - lineWidth / 2) (centerY + lineWidth / 2 + 1) plusColor

/-- The blit loop of `compositePages`: each resized page is drawn at
`destRect = [currentX, currentX + page.Bounds().Dx()) × [0, ph)` and
`currentX` then advances by the target width. -/
def blitPages (step : Nat) (ph : Nat) : Img → List Img → Int → Img
  | canvas, [], _ => canvas
  | canvas, p :: rest, x0 =>
      blitPages step ph (drawImageAt canvas x0 0 p p.w ph) rest (x0 + (step : Int))

/-- part_002 `compositePages`: up to 4 pages side by side, each fitted to
`width × pageHeight(width)`; more than 4 pages add a `width`-wide "+"
indicator tile. -/
def compositePages (E : Libs) (pages : List Img) (width : Nat) : Img :=
  let numPagesToShow := if pages.length > 4 then 4 else pages.length
  let showPlusIndicator := pages.length > 4
  let ph := pageHeight width
  let resizedPages := (pages.take numPagesToShow).map (fun p => resizeToPage E p width)
  let totalWidth := numPagesToShow * width + (if showPlusIndicator then width else 0)
  let canvas := fillRect (newRGBA totalWidth ph) 0 (totalWidth : Int) 0 (ph : Int) white
  let canvas := blitPages width ph canvas resizedPages 0
  if showPlusIndicator then
    drawPlusIndicator canvas ((numPagesToShow * width : Nat) : Int) (ph : Int)
  else canvas

/-- uniform.go `drawPageCountBadge` helper: `uint8(float64(v) * 0.3)`.  For
byte values the double-precision product rounds so that truncation agrees
with the exact `3·v/10`. -/
def darken30 (c : RGBA) : RGBA := ⟨3 * c.r / 10, 3 * c.g / 10, 3 * c.b / 10, 255⟩

/-- uniform.go `drawPageCountBadge`: a darkened rectangle in the bottom-right
corner with the page count ("2".."9", or "9+" above 9) drawn in white.
`font.MeasureString(face, label).Ceil() = 7 * len(label)` and
`face.Metrics().Ascent.Ceil() = 11` for `basicfont.Face7x13`. -/
def drawPageCountBadge (E : Libs) (img : Img) (pageCount : Nat) : Img :=
  let label := if pageCount > 9 then "9+" else toString pageCount
  let textWidth : Int := 7 * label.length
  let ascent : Int := 11
  let padding : Int := 3
  let badgeW := textWidth + padding * 2
  let badgeH := ascent + padding * 2
  let imgW : Int := img.w
  let imgH : Int := img.h
  let margin : Int := 2
  let badgeX := imgW - badgeW - margin
  let badgeY := imgH - badgeH - margin
  let img1 := mapRect img badgeX (badgeX + badgeW) badgeY (badgeY + badgeH) darken30
  drawString E img1 (badgeX + padding) (badgeY + padding + ascent) label white

/-- uniform.go `uniformPage`: a fixed `width × uniformHeight(width)` canvas,
light-grey filled, with the first page scaled to the width and cropped from
the top or placed at the top, and a page-count badge when `pageCount > 1`. -/
def uniformPage (E : Libs) (firstPage : Img) (pageCount : Nat) (width : Nat) : Img :=
  let w := width
  let hgt := uniformHeight width
  let dst := fillRect (newRGBA w hgt) 0 (w : Int) 0 (hgt : Int) bgColor
  let dst2 :=
    if 0 < firstPage.w ∧ 0 < firstPage.h then
      let scaledH := firstPage.h * width / firstPage.w
      let scaled := catmullScale E firstPage w scaledH
      if scaledH ≥ hgt then drawImageAt dst 0 0 scaled w hgt
      else drawImageAt dst 0 0 scaled w scaledH
    else dst
  if pageCount > 1 then drawPageCountBadge E dst2 pageCount else dst2

/-- Go `filepath.Ext`: the suffix of the final slash-separated element of the
path starting at its final dot; empty when that element has no dot. -/
def goExt (path : String) : String :=
  let base := (path.data.reverse.takeWhile (fun c => c != '/')).reverse
  if '.' ∈ base then ⟨'.' :: (base.reverse.takeWhile (fun c => c != '.')).reverse⟩
  else ""

/-- Go `strings.ToLower` restricted to ASCII, which is all the extension
dispatch compares against. -/
def goToLower (s : String) : String := ⟨s.data.map Char.toLower⟩

/-- The external decoder collaborators of the extraction stage: the PDFium
renderer pool (its construction and its `RenderPDF`), the filesystem
(`os.Open`), the TIFF frame decoder and the single-image decoder. -/
structure Decoders where
  newPDFRenderer : Except String Unit
  renderPDF : String → Except String (List Img)
  openFile : String → Except String Unit
  decodeTIFF : String → Except String (List Img)
  decodeImage : String → Except String Img

/-- pdf.go `renderPDFPages`. -/
def renderPDFPages (d : Decoders) (path : String) : Except String (List Img) :=
  match d.newPDFRenderer with
  | .error e => .error ("failed to create PDF renderer: " ++ e)
  | .ok _ =>
    match d.renderPDF path with
    | .error e => .error ("failed to render PDF pages: " ++ e)
    | .ok pages =>
      if pages.length = 0 then .error "PDF has no pages" else .ok pages

/-- part_000 `renderTIFFPages` (open the file, decode the frames, reject an
empty page list). -/
def renderTIFFPages (d : Decoders) (path : String) : Except String (List Img) :=
  match d.openFile path with
  | .error e => .error ("failed to open TIFF file: " ++ e)
  | .ok _ =>
    match d.decodeTIFF path with
    | .error e => .error ("failed to decode TIFF: " ++ e)
    | .ok pages =>
      if pages.length = 0 then .error "TIFF has no pages" else .ok pages

/-- part_001 `renderImagePage` (open the file and decode a single frame). -/
def renderImagePage (d : Decoders) (path : String) : Except String Img :=
  match d.openFile path with
  | .error e => .error ("failed to open image file: " ++ e)
  | .ok _ =>
    match d.decodeImage path with
    | .error e => .error ("failed to decode image: " ++ e)
    | .ok img => .ok img

/-- thumbnail.go `renderPages`: dispatch on the lowercased extension. -/
def renderPages (d : Decoders) (filePath : String) : Except String (List Img) :=
  let ext := goToLower (goExt filePath)
  if ext = ".pdf" then renderPDFPages d filePath
  else if ext = ".tif" ∨ ext = ".tiff" then renderTIFFPages d filePath
  else if ext = ".jpg" ∨ ext = ".jpeg" ∨ ext = ".png" then
    match renderImagePage d filePath with
    | .error e => .error e
    | .ok img => .ok [img]
  else .error ("unsupported file format: " ++ ext)

/-- thumbnail.go `Style`. -/
inductive Style where
  | composite
  | uniform
deriving DecidableEq, Repr

/-- thumbnail.go `GenerateStyled`.  `pages[0]` in the uniform branch is
modelled by `headD`; every `.ok` result of `renderPages` is a non-empty
list (each branch rejects zero pages), so the default is never read. -/
def GenerateStyled (E : Libs) (d : Decoders) (filePath : String) (width : Nat)
    (style : Style) : Except String Img :=
  match renderPages d filePath with
  | .error e => .error e
  | .ok pages =>
    match style with
    | .uniform => .ok (uniformPage E (pages.headD (newRGBA 0 0)) pages.length width)
    | .composite => .ok (compositePages E pages width)

/-- thumbnail.go `Generate`. -/
def Generate (E : Libs) (d : Decoders) (filePath : String) (width : Nat) :
    Except String Img :=
  GenerateStyled E d filePath width .composite

/-- placeholder.go `GenerateOrPlaceholder`. -/
def GenerateOrPlaceholder (E : Libs) (d : Decoders) (filePath : String)
    (height : Nat) : Img :=
  match Generate E d filePath height with
  | .ok img => img
  | .error err => ErrorPlaceholder E (classifyError err).label height

/-- A Go `*image.RGBA`: the packed byte buffer `Pix`, the row stride and the
bounds (normalised to `Min = (0,0)`). -/
structure RGBAImg where
  w : Nat
  h : Nat
  stride : Nat
  pix : List Nat

/-- corrupt.go `CorruptionResult`; the two fractions are exact rationals. -/
structure CorruptionResult where
  corrupt : Bool
  reason : String
  corruptRowFraction : ℚ
  nonOpaqueRowFraction : ℚ

/-- The index sequence of a Go loop `for i := 0; i < limit; i += step`
(for `step ≥ 1`): `0, step, 2·step, …` below `limit`. -/
def sampleIdx (limit step : Nat) : List Nat :=
  (List.range ((limit + step - 1) / step)).map (fun k => k * step)

/-- corrupt.go lines 42-45: sample every row for height ≤ 500, else every
`height/500`-th row. -/
def rowStepOf (h : Nat) : Nat := if h > 500 then h / 500 else 1

/-- corrupt.go lines 56-58: sample every pixel for width ≤ 100, else every
`width/100`-th pixel. -/
def xStepOf (w : Nat) : Nat := if w > 100 then w / 100 else 1

/-- The alpha byte read in corrupt.go line 60-61:
`rgba.Pix[(y-Min.Y)*Stride + x*4 + 3]`. -/
def alphaAt (im : RGBAImg) (y x : Nat) : Nat :=
  im.pix.getD (y * im.stride + x * 4 + 3) 0

/-- The sampled column positions of one row. -/
def sampledCols (im : RGBAImg) : List Nat := sampleIdx im.w (xStepOf im.w)

/-- `nonOpaqueInRow`: sampled pixels of row `y` whose alpha is not 255. -/
def nonOpaqueInRow (im : RGBAImg) (y : Nat) : Nat :=
  ((sampledCols im).filter (fun x => alphaAt im y x != 255)).length

/-- corrupt.go line 69: a row is alpha-corrupt when
`float64(nonOpaqueInRow)/float64(pixelsSampled) > 0.10`, i.e. (exactly, for
the sizes involved) `10 · nonOpaqueInRow > pixelsSampled`, and at least one
pixel was sampled. -/
def rowCorrupt (im : RGBAImg) (y : Nat) : Bool :=
  decide (0 < (sampledCols im).length ∧
    10 * nonOpaqueInRow im y > (sampledCols im).length)

/-- The sampled row positions. -/
def sampledRows (im : RGBAImg) : List Nat := sampleIdx im.h (rowStepOf im.h)

/-- The count of sampled rows classified alpha-corrupt (corrupt.go lines
69-72 increment `alphaRows` and `corruptRows` together, so the two counters
are equal). -/
def corruptRowsCount (im : RGBAImg) : Nat :=
  ((sampledRows im).filter (fun y => rowCorrupt im y)).length

/-- corrupt.go `CheckPageCorruption`, on the `*image.RGBA` fast path
(lines 25-96).  The float comparison `corruptFrac > 0.05` is the exact
rational comparison for the sizes involved. -/
def CheckPageCorruption (im : RGBAImg) : CorruptionResult :=
  if im.w = 0 ∨ im.h = 0 then ⟨true, "zero dimensions", 0, 0⟩
  else
    let rowsSampled := (sampledRows im).length
    let corruptRows := corruptRowsCount im
    let alphaRows := corruptRows
    if rowsSampled = 0 then ⟨false, "", 0, 0⟩
    else
      let corruptFrac : ℚ := (corruptRows : ℚ) / (rowsSampled : ℚ)
      let alphaFrac : ℚ := (alphaRows : ℚ) / (rowsSampled : ℚ)
      if corruptFrac > 1 / 20 then
        ⟨true, "non-opaque alpha rows indicating corrupt pixel buffer",
          corruptFrac, alphaFrac⟩
      else ⟨false, "", corruptFrac, alphaFrac⟩

/-- corrupt.go `CheckThumbnailCorruption` delegates unchanged. -/
def CheckThumbnailCorruption (im : RGBAImg) : CorruptionResult :=
  CheckPageCorruption im

/-- The alpha-forcing loop of pdfrenderer/pdfium_renderer.go lines 88-92
applied to the freshly copied buffer: `for i := 3; i < len(pix); i += 4
{ pix[i] = 255 }`, i.e. every byte at an index `≡ 3 (mod 4)` becomes 255.
The counter argument is the index of the head of the remaining list. -/
def fixAlphaFrom : Nat → List Nat → List Nat
  | _, [] => []
  | i, b :: rest => (if i % 4 = 3 then 255 else b) :: fixAlphaFrom (i + 1) rest

/-- The buffer of the page image built by `RenderPDF` (pdfium_renderer.go
lines 84-97): a copy of the PDFium buffer with every alpha byte forced to
255. -/
def fixAlpha (pix : List Nat) : List Nat := fixAlphaFrom 0 pix

/-- The `*image.RGBA` value appended to `images` for one rendered page:
`&image.RGBA{Pix: pix, Stride: src.Stride, Rect: src.Rect}` with `pix` the
alpha-fixed copy. -/
def renderedPDFPage (srcPix : List Nat) (srcStride w h : Nat) : RGBAImg :=
  ⟨w, h, srcStride, fixAlpha srcPix⟩

/-! Concrete instantiations of the external collaborators, used to evaluate
the theorems below on concrete inputs. -/

/-- A concrete interpolation kernel and glyph rasteriser (any behaviour of
the external libraries is admissible; the theorems quantify over `Libs`). -/
def plainLibs : Libs := ⟨fun _ _ _ _ _ => white, fun _ _ _ => false⟩

/-- A solid-colour raster. -/
def solidImg (w h : Nat) (c : RGBA) : Img := ⟨w, h, fun _ _ => c⟩

/-- A 100×80 opaque grey page, the source of the spec's concrete fitting
scenario. -/
def srcPage : Img := solidImg 100 80 ⟨10, 10, 10, 255⟩

/-- Decoders for which every format succeeds with concrete pages. -/
def okDecoders : Decoders :=
  ⟨.ok (), fun _ => .ok [srcPage], fun _ => .ok (), fun _ => .ok [srcPage],
    fun _ => .ok srcPage⟩

/-- Decoders for which opening any file fails the way `os.Open` reports a
missing file. -/
def missingFileDecoders : Decoders :=
  ⟨.ok (), fun p => .error ("open " ++ p ++ ": no such file or directory"),
    fun p => .error ("open " ++ p ++ ": no such file or directory"),
    fun _ => .error "unreachable", fun _ => .error "unreachable"⟩

lemma pageHeight_64 : pageHeight 64 = 91 := by decide

lemma pageHeight_50 : pageHeight 50 = 71 := by decide

/-- C8: `classifyError` matches substrings of the error message in priority
order: "invalid password" → Password Protected (amber), then
"unsupported file format" → Unsupported Format (grey), then
"no such file" / "not exist" → File Not Found (dark grey), otherwise the
generic red Error. -/
theorem C8_classifyError_priority (msg : String) :
    (goContains msg "invalid password" = true →
      classifyError msg = ⟨"Password Protected", ⟨200, 150, 0, 255⟩⟩) ∧
    (goContains msg "invalid password" = false →
      goContains msg "unsupported file format" = true →
      classifyError msg = ⟨"Unsupported Format", ⟨130, 130, 130, 255⟩⟩) ∧
    (goContains msg "invalid password" = false →
      goContains msg "unsupported file format" = false →
      (goContains msg "no such file" = true ∨ goContains msg "not exist" = true) →
      classifyError msg = ⟨"File Not Found", ⟨80, 80, 80, 255⟩⟩) ∧
    (goContains msg "invalid password" = false →
      goContains msg "unsupported file format" = false →
      goContains msg "no such file" = false →
      goContains msg "not exist" = false →
      classifyError msg = ⟨"Error", ⟨180, 40, 40, 255⟩⟩) := by
  refine ⟨fun h1 => ?_, fun h1 h2 => ?_, fun h1 h2 h3 => ?_, fun h1 h2 h3 h4 => ?_⟩
  · simp [classifyError, h1]
  · simp [classifyError, h1, h2]
  · rcases h3 with h3 | h3 <;> simp [classifyError, h1, h2, h3]
  · simp [classifyError, h1, h2, h3, h4]

theorem C8_classifyError_priority_witness :
    (goContains "doc.pdf: invalid password" "invalid password" = true ∧
      classifyError "doc.pdf: invalid password" =
        ⟨"Password Protected", ⟨200, 150, 0, 255⟩⟩) ∧
    classifyError "unsupported file format: .xyz" =
      ⟨"Unsupported Format", ⟨130, 130, 130, 255⟩⟩ ∧
    classifyError "open a.pdf: no such file or directory" =
      ⟨"File Not Found", ⟨80, 80, 80, 255⟩⟩ ∧
    classifyError "boom" = ⟨"Error", ⟨180, 40, 40, 255⟩⟩ :=
  ⟨⟨by decide, (C8_classifyError_priority _).1 (by decide)⟩,
    (C8_classifyError_priority _).2.1 (by decide) (by decide),
    (C8_classifyError_priority _).2.2.1 (by decide) (by decide) (.inl (by decide)),
    (C8_classifyError_priority _).2.2.2 (by decide) (by decide) (by decide) (by decide)⟩

/-- C2: `GenerateOrPlaceholder` is total: for every decoder behaviour, path
and width it returns an image — the generated thumbnail when the pipeline
succeeds, and the placeholder for the classified error on any failure
(nonexistent files and unsupported extensions included); it never
propagates the error.  The second conjunct evaluates the nonexistent-file
case concretely. -/
theorem C2_generateOrPlaceholder_total :
    (∀ (E : Libs) (d : Decoders) (path : String) (hgt : Nat),
      (∃ img, Generate E d path hgt = .ok img ∧
        GenerateOrPlaceholder E d path hgt = img) ∨
      (∃ e, Generate E d path hgt = .error e ∧
        GenerateOrPlaceholder E d path hgt =
          ErrorPlaceholder E (classifyError e).label hgt)) ∧
    (∀ (E : Libs) (hgt : Nat),
      GenerateOrPlaceholder E missingFileDecoders "nope.png" hgt =
        ErrorPlaceholder E "File Not Found" hgt) ∧
    (∀ (E : Libs) (d : Decoders) (hgt : Nat),
      GenerateOrPlaceholder E d "file.xyz" hgt =
        ErrorPlaceholder E "Unsupported Format" hgt) := by
  refine ⟨fun E d path hgt => ?_, fun E hgt => ?_, fun E d hgt => ?_⟩
  · cases h : Generate E d path hgt with
    | ok img => exact .inl ⟨img, rfl, by simp [GenerateOrPlaceholder, h]⟩
    | error e => exact .inr ⟨e, rfl, by simp [GenerateOrPlaceholder, h]⟩
  · have hext : goToLower (goExt "nope.png") = ".png" := by decide
    have hcl : classifyError
        "failed to open image file: open nope.png: no such file or directory" =
        ⟨"File Not Found", ⟨80, 80, 80, 255⟩⟩ := by decide
    simp [GenerateOrPlaceholder, Generate, GenerateStyled, renderPages, hext,
      renderImagePage, missingFileDecoders, hcl]
  · have hext : goToLower (goExt "file.xyz") = ".xyz" := by decide
    have hcl : classifyError "unsupported file format: .xyz" =
        ⟨"Unsupported Format", ⟨130, 130, 130, 255⟩⟩ := by decide
    simp [GenerateOrPlaceholder, Generate, GenerateStyled, renderPages, hext, hcl]

lemma fillRect_pix_in {img : Img} {x0 x1 y0 y1 x y : Int} {c : RGBA}
    (h : x0 ≤ x ∧ x < x1 ∧ y0 ≤ y ∧ y < y1 ∧
      0 ≤ x ∧ x < (img.w : Int) ∧ 0 ≤ y ∧ y < (img.h : Int)) :
    (fillRect img x0 x1 y0 y1 c).pix x y = c := if_pos h

lemma fillRect_pix_out {img : Img} {x0 x1 y0 y1 x y : Int} {c : RGBA}
    (h : ¬(x0 ≤ x ∧ x < x1 ∧ y0 ≤ y ∧ y < y1 ∧
      0 ≤ x ∧ x < (img.w : Int) ∧ 0 ≤ y ∧ y < (img.h : Int))) :
    (fillRect img x0 x1 y0 y1 c).pix x y = img.pix x y := if_neg h

lemma drawImageAt_pix_in {dst : Img} {x0 y0 : Int} {src : Img} {rw rh : Nat}
    {x y : Int}
    (h : x0 ≤ x ∧ x < x0 + (rw : Int) ∧ y0 ≤ y ∧ y < y0 + (rh : Int) ∧
      x - x0 < (src.w : Int) ∧ y - y0 < (src.h : Int) ∧
      0 ≤ x ∧ x < (dst.w : Int) ∧ 0 ≤ y ∧ y < (dst.h : Int)) :
    (drawImageAt dst x0 y0 src rw rh).pix x y = src.pix (x - x0) (y - y0) :=
  if_pos h

lemma drawImageAt_pix_out {dst : Img} {x0 y0 : Int} {src : Img} {rw rh : Nat}
    {x y : Int}
    (h : ¬(x0 ≤ x ∧ x < x0 + (rw : Int) ∧ y0 ≤ y ∧ y < y0 + (rh : Int) ∧
      x - x0 < (src.w : Int) ∧ y - y0 < (src.h : Int) ∧
      0 ≤ x ∧ x < (dst.w : Int) ∧ 0 ≤ y ∧ y < (dst.h : Int))) :
    (drawImageAt dst x0 y0 src rw rh).pix x y = dst.pix x y := if_neg h

@[simp] lemma blitPages_w (step ph : Nat) (ps : List Img) :
    ∀ (canvas : Img) (x0 : Int), (blitPages step ph canvas ps x0).w = canvas.w := by
  induction ps with
  | nil => intro c x0; rfl
  | cons p rest ih => intro c x0; simp [blitPages, ih]

@[simp] lemma blitPages_h (step ph : Nat) (ps : List Img) :
    ∀ (canvas : Img) (x0 : Int), (blitPages step ph canvas ps x0).h = canvas.h := by
  induction ps with
  | nil => intro c x0; rfl
  | cons p rest ih => intro c x0; simp [blitPages, ih]

@[simp] lemma resizeToPage_w (E : Libs) (img : Img) (w : Nat) :
    (resizeToPage E img w).w = w := by
  simp only [resizeToPage]
  split_ifs <;> rfl

@[simp] lemma resizeToPage_h (E : Libs) (img : Img) (w : Nat) :
    (resizeToPage E img w).h = pageHeight w := by
  simp only [resizeToPage]
  split_ifs <;> rfl

/-- C1 counterexample: at width 64, the placeholder rendered for an
"invalid password" error is 64 pixels tall, while the successful
Composite-style thumbnail at the same width is `pageHeight 64 = 91` pixels
tall — the placeholder does not match the success dimensions. -/
theorem C1_counterexample :
    (ErrorPlaceholder plainLibs (classifyError "pdf: invalid password").label 64).h = 64 ∧
    (ErrorPlaceholder plainLibs (classifyError "pdf: invalid password").label 64).w = 64 ∧
    (compositePages plainLibs [srcPage] 64).h = 91 ∧
    (compositePages plainLibs [srcPage] 64).w = 64 ∧
    (64 : Nat) ≠ 91 := by
  refine ⟨rfl, rfl, ?_, ?_, by decide⟩
  · simp [compositePages, pageHeight_64]
  · simp [compositePages]

/-- C1 (amended): `ErrorPlaceholder` renders a square `w × w` canvas (not
`w × pageHeight w`); for an error containing "invalid password" every
in-bounds pixel is the amber background or the white of the centred label
text. -/
theorem C1_placeholder_square (E : Libs) (e : String) (w : Nat) :
    (ErrorPlaceholder E (classifyError e).label w).w = w ∧
    (ErrorPlaceholder E (classifyError e).label w).h = w ∧
    (goContains e "invalid password" = true →
      ∀ x y : Int, 0 ≤ x → x < w → 0 ≤ y → y < w →
        (ErrorPlaceholder E (classifyError e).label w).pix x y = ⟨200, 150, 0, 255⟩ ∨
        (ErrorPlaceholder E (classifyError e).label w).pix x y = white) := by
  refine ⟨rfl, rfl, fun hpw x y hx hxw hy hyw => ?_⟩
  have hlab : (classifyError e).label = "Password Protected" := by
    simp [classifyError, hpw]
  rw [hlab]
  simp only [ErrorPlaceholder, drawCentredText, drawString, fillRect, newRGBA]
  split_ifs with h1 h2
  · exact Or.inr rfl
  · exact Or.inl (by decide)
  · exact absurd ⟨hx, hxw, hy, hyw, hx, hxw, hy, hyw⟩ h2

theorem C1_placeholder_square_witness :
    goContains "pdf: invalid password" "invalid password" = true ∧
    ((ErrorPlaceholder plainLibs (classifyError "pdf: invalid password").label 64).pix
        0 0 = ⟨200, 150, 0, 255⟩ ∨
      (ErrorPlaceholder plainLibs (classifyError "pdf: invalid password").label 64).pix
        0 0 = white) :=
  ⟨by decide,
    (C1_placeholder_square plainLibs "pdf: invalid password" 64).2.2 (by decide)
      0 0 (by decide) (by decide) (by decide) (by decide)⟩

/-- C3: the page fitter always returns a `w × pageHeight w` canvas and never
fails — a degenerate source yields the blank canvas of that fixed size —
and on the spec's concrete scenario (a 100×80 source fitted to width 50)
the output is 50×71 with the scaled 50×40 image flush at the top and the
bottom 31 rows filled with the background colour. -/
theorem C3_resizeToPage_fit (E : Libs) (img : Img) (w : Nat) (hw : 0 < w) :
    ((resizeToPage E img w).w = w ∧ (resizeToPage E img w).h = pageHeight w) ∧
    (img.w = 0 ∨ img.h = 0 → resizeToPage E img w = newRGBA w (pageHeight w)) ∧
    ((resizeToPage E srcPage 50).w = 50 ∧ (resizeToPage E srcPage 50).h = 71 ∧
      (∀ x y : Int, 0 ≤ x → x < 50 → 0 ≤ y → y < 40 →
        (resizeToPage E srcPage 50).pix x y = (catmullScale E srcPage 50 40).pix x y) ∧
      (∀ x y : Int, 0 ≤ x → x < 50 → 40 ≤ y → y < 71 →
        (resizeToPage E srcPage 50).pix x y = bgColor)) := by
  have hconc : resizeToPage E srcPage 50 =
      drawImageAt (fillRect (newRGBA 50 71) 0 50 0 71 bgColor) 0 0
        (catmullScale E srcPage 50 40) 50 40 := by
    simp [resizeToPage, srcPage, solidImg, pageHeight_50]
  refine ⟨⟨resizeToPage_w E img w, resizeToPage_h E img w⟩, fun hdeg => ?_, ?_, ?_, ?_, ?_⟩
  · simp [resizeToPage, hdeg]
  · simp [hconc]
  · simp [hconc]
  · intro x y hx hxw hy hyw
    rw [hconc, drawImageAt_pix_in (by refine ⟨hx, ?_, hy, ?_, ?_, ?_, hx, ?_, hy, ?_⟩ <;> (try simp) <;> omega)]
    simp
  · intro x y hx hxw hy hyw
    rw [hconc, drawImageAt_pix_out (by intro hcond; obtain ⟨-, -, -, hbad, -⟩ := hcond; omega),
      fillRect_pix_in (by refine ⟨hx, ?_, ?_, ?_, hx, ?_, ?_, ?_⟩ <;> (try simp) <;> omega)]

theorem C3_resizeToPage_fit_witness :
    0 < 50 ∧ (resizeToPage plainLibs srcPage 50).h = 71 ∧
    (resizeToPage plainLibs srcPage 50).pix 0 45 = bgColor :=
  ⟨by decide, ((C3_resizeToPage_fit plainLibs srcPage 50 (by decide)).2.2).2.1,
    ((C3_resizeToPage_fit plainLibs srcPage 50 (by decide)).2.2).2.2.2 0 45
      (by decide) (by decide) (by decide) (by decide)⟩

@[simp] lemma drawPlusIndicator_w (img : Img) (sx hg : Int) :
    (drawPlusIndicator img sx hg).w = img.w := rfl

@[simp] lemma drawPlusIndicator_h (img : Img) (sx hg : Int) :
    (drawPlusIndicator img sx hg).h = img.h := rfl

@[simp] lemma drawPageCountBadge_w (E : Libs) (img : Img) (n : Nat) :
    (drawPageCountBadge E img n).w = img.w := rfl

@[simp] lemma drawPageCountBadge_h (E : Libs) (img : Img) (n : Nat) :
    (drawPageCountBadge E img n).h = img.h := rfl

/-- A five-page set for the spec's composite overflow scenario. -/
def fivePages : List Img := List.replicate 5 srcPage

/-- C4: the composite output is `pageHeight w` tall; its width is
`n·w` for at most 4 pages and `4·w + w` (the indicator tile) for more,
whatever the true count.  On the 5-page, width-64 scenario the output is
320×91 and the pixel at the centre of the fifth tile carries the "+"
glyph colour. -/
theorem C4_composite_dims (E : Libs) (pages : List Img) (w : Nat) (hw : 0 < w) :
    ((compositePages E pages w).h = pageHeight w ∧
      (pages.length ≤ 4 → (compositePages E pages w).w = pages.length * w) ∧
      (pages.length > 4 → (compositePages E pages w).w = 4 * w + w)) ∧
    ((compositePages E fivePages 64).w = 320 ∧
      (compositePages E fivePages 64).h = 91 ∧
      (compositePages E fivePages 64).pix 301 45 = plusColor) := by
  have hfive : fivePages.length = 5 := by decide
  refine ⟨⟨?_, fun hle => ?_, fun hgt => ?_⟩, ?_, ?_, ?_⟩
  · simp only [compositePages]
    split_ifs <;> simp
  · have h4 : ¬pages.length > 4 := by omega
    simp [compositePages, h4]
  · simp [compositePages, hgt]
  · simp [compositePages, hfive]
  · simp [compositePages, hfive, pageHeight_64]
  · have hcp : compositePages E fivePages 64 =
        drawPlusIndicator
          (blitPages 64 91
            (fillRect (newRGBA 320 91) 0 320 0 91 white)
            ((fivePages.take 4).map (fun p => resizeToPage E p 64)) 0)
          256 91 := by
      simp [compositePages, hfive, pageHeight_64]
    rw [hcp]
    simp only [drawPlusIndicator]
    rw [fillRect_pix_in]
    refine ⟨by norm_num, by norm_num, by norm_num, by norm_num, by norm_num, ?_, by norm_num, ?_⟩
    · simp [fivePages]
    · simp [fivePages]

theorem C4_composite_dims_witness :
    0 < 64 ∧ (compositePages plainLibs fivePages 64).w = 320 ∧
    (compositePages plainLibs [srcPage, srcPage] 64).w = 2 * 64 ∧
    (compositePages plainLibs fivePages 64).pix 301 45 = plusColor :=
  ⟨by decide, (C4_composite_dims plainLibs fivePages 64 (by decide)).2.1,
    (C4_composite_dims plainLibs [srcPage, srcPage] 64 (by decide)).1.2.1 (by decide),
    (C4_composite_dims plainLibs fivePages 64 (by decide)).2.2.2⟩

/-- C5: the uniform-style output always has dimensions
`w × uniformHeight w`, whatever the page count; `GenerateStyled` in
uniform style draws only the first extracted page, the rest of the page
set entering only through its length (the badge count). -/
theorem C5_uniform_dims (E : Libs) (page : Img) (count w : Nat) (hw : 0 < w) :
    ((uniformPage E page count w).w = w ∧
      (uniformPage E page count w).h = uniformHeight w) ∧
    (∀ (d : Decoders) (path : String) (pages : List Img),
      renderPages d path = .ok pages →
      GenerateStyled E d path w .uniform =
        .ok (uniformPage E (pages.headD (newRGBA 0 0)) pages.length w)) := by
  refine ⟨⟨?_, ?_⟩, fun d path pages h => ?_⟩
  · simp only [uniformPage]
    split_ifs <;> rfl
  · simp only [uniformPage]
    split_ifs <;> rfl
  · simp [GenerateStyled, h]

theorem C5_uniform_dims_witness :
    0 < 64 ∧ (uniformPage plainLibs srcPage 5 64).w = 64 ∧
    (uniformPage plainLibs srcPage 5 64).h = uniformHeight 64 ∧
    GenerateStyled plainLibs okDecoders "a.png" 64 .uniform =
      .ok (uniformPage plainLibs ([srcPage].headD (newRGBA 0 0)) [srcPage].length 64) := by
  have hok : renderPages okDecoders "a.png" = .ok [srcPage] := by
    have hext : goToLower (goExt "a.png") = ".png" := by decide
    simp [renderPages, hext, renderImagePage, okDecoders]
  exact ⟨by decide, (C5_uniform_dims plainLibs srcPage 5 64 (by decide)).1.1,
    (C5_uniform_dims plainLibs srcPage 5 64 (by decide)).1.2,
    (C5_uniform_dims plainLibs srcPage 5 64 (by decide)).2 okDecoders "a.png" [srcPage] hok⟩

/-- C6: whenever the fitter pads (the scaled height falls short of the
canvas height), the rows below the placed image are the light-grey
`bgColor` — in the composite fitting path (`resizeToPage`) and in the
uniform fitting path (`uniformPage`, page count 1, so that no badge is
drawn over the padding) — and that colour is not pure white. -/
theorem C6_pad_fill (E : Libs) (src : Img) (w : Nat) (hw : 0 < w)
    (hsw : 0 < src.w) (hsh : 0 < src.h) :
    (src.h * w / src.w < pageHeight w →
      ∀ x y : Int, 0 ≤ x → x < w → ((src.h * w / src.w : Nat) : Int) ≤ y →
        y < pageHeight w → (resizeToPage E src w).pix x y = bgColor) ∧
    (src.h * w / src.w < uniformHeight w →
      ∀ x y : Int, 0 ≤ x → x < w → ((src.h * w / src.w : Nat) : Int) ≤ y →
        y < uniformHeight w → (uniformPage E src 1 w).pix x y = bgColor) ∧
    bgColor ≠ white := by
  have hdeg : ¬(src.w = 0 ∨ src.h = 0) := by omega
  refine ⟨fun hpad x y hx hxw hy hyw => ?_, fun hpad x y hx hxw hy hyw => ?_, by decide⟩
  · have hy0 : (0 : Int) ≤ y := le_trans (Int.natCast_nonneg _) hy
    have hres : resizeToPage E src w =
        drawImageAt
          (fillRect (newRGBA w (pageHeight w)) 0 (w : Int) 0 ((pageHeight w : Nat) : Int) bgColor)
          0 0 (catmullScale E src w (src.h * w / src.w)) w (src.h * w / src.w) := by
      simp only [resizeToPage]
      rw [if_neg hdeg, if_neg (by omega)]
    rw [hres, drawImageAt_pix_out (by intro hc; obtain ⟨-, -, -, hbad, -⟩ := hc; omega),
      fillRect_pix_in (by refine ⟨hx, ?_, ?_, ?_, hx, ?_, ?_, ?_⟩ <;> (try simp) <;> omega)]
  · have hy0 : (0 : Int) ≤ y := le_trans (Int.natCast_nonneg _) hy
    have huni : uniformPage E src 1 w =
        drawImageAt
          (fillRect (newRGBA w (uniformHeight w)) 0 (w : Int) 0 ((uniformHeight w : Nat) : Int) bgColor)
          0 0 (catmullScale E src w (src.h * w / src.w)) w (src.h * w / src.w) := by
      simp only [uniformPage]
      rw [if_neg (by omega), if_pos (by omega), if_neg (by omega)]
    rw [huni, drawImageAt_pix_out (by intro hc; obtain ⟨-, -, -, hbad, -⟩ := hc; omega),
      fillRect_pix_in (by refine ⟨hx, ?_, ?_, ?_, hx, ?_, ?_, ?_⟩ <;> (try simp) <;> omega)]

theorem C6_pad_fill_witness :
    (0 < 50 ∧ 0 < srcPage.w ∧ 0 < srcPage.h ∧
      srcPage.h * 50 / srcPage.w < pageHeight 50 ∧
      srcPage.h * 50 / srcPage.w < uniformHeight 50) ∧
    (resizeToPage plainLibs srcPage 50).pix 10 60 = bgColor ∧
    (uniformPage plainLibs srcPage 1 50).pix 10 60 = bgColor := by
  have h50 : pageHeight 50 = 71 := pageHeight_50
  refine ⟨⟨by decide, by decide, by decide, by rw [h50]; decide, by decide⟩, ?_, ?_⟩
  · exact (C6_pad_fill plainLibs srcPage 50 (by decide) (by decide) (by decide)).1
      (by rw [h50]; decide) 10 60 (by decide) (by decide) (by decide) (by rw [h50]; decide)
  · exact (C6_pad_fill plainLibs srcPage 50 (by decide) (by decide) (by decide)).2.1
      (by decide) 10 60 (by decide) (by decide) (by decide) (by decide)

lemma mem_sampleIdx {limit step y : Nat} (hs : 0 < step)
    (hy : y ∈ sampleIdx limit step) : y < limit := by
  simp only [sampleIdx, List.mem_map, List.mem_range] at hy
  obtain ⟨k, hk, rfl⟩ := hy
  have h1 : (k + 1) * step ≤ limit + step - 1 := (Nat.le_div_iff_mul_le hs).mp hk
  rw [Nat.succ_mul] at h1
  omega

lemma sampleIdx_length_pos {limit step : Nat} (hl : 0 < limit) (hs : 0 < step) :
    0 < (sampleIdx limit step).length := by
  simp only [sampleIdx, List.length_map, List.length_range]
  exact Nat.div_pos (by omega) hs

lemma rowStepOf_pos (h : Nat) : 0 < rowStepOf h := by
  unfold rowStepOf
  split_ifs with hh
  · exact Nat.div_pos (by omega) (by norm_num)
  · norm_num

lemma xStepOf_pos (w : Nat) : 0 < xStepOf w := by
  unfold xStepOf
  split_ifs with hh
  · exact Nat.div_pos (by omega) (by norm_num)
  · norm_num

/-- On a well-formed buffer whose alpha bytes are all 255, the detector
samples only opaque pixels: every row has zero non-opaque samples and the
verdict is clean. -/
lemma opaque_analysis (im : RGBAImg) (hstride : im.stride = 4 * im.w)
    (hlen : im.pix.length = im.stride * im.h) (hw : 0 < im.w) (hh : 0 < im.h)
    (hop : ∀ i, i < im.pix.length → i % 4 = 3 → im.pix.getD i 0 = 255) :
    (∀ y, y < im.h → nonOpaqueInRow im y = 0) ∧
    (CheckPageCorruption im).corrupt = false := by
  have halpha : ∀ y, y < im.h → ∀ x, x < im.w → alphaAt im y x = 255 := by
    intro y hy x hx
    have hoff4 : (y * im.stride + x * 4 + 3) % 4 = 3 := by
      rw [hstride, show y * (4 * im.w) = 4 * (y * im.w) by ring]
      omega
    have hofflt : y * im.stride + x * 4 + 3 < im.pix.length := by
      rw [hlen]
      have h1 : y * im.stride ≤ (im.h - 1) * im.stride :=
        Nat.mul_le_mul_right _ (by omega)
      have h2 : x * 4 + 3 ≤ im.stride - 1 := by rw [hstride]; omega
      have h3 : (im.h - 1) * im.stride = im.h * im.stride - im.stride := by
        rw [Nat.sub_one_mul]
      have h4 : im.stride ≤ im.h * im.stride := Nat.le_mul_of_pos_left _ hh
      have h5 : 0 < im.stride := by omega
      rw [Nat.mul_comm im.stride im.h]
      omega
    exact hop _ hofflt hoff4
  have hrow : ∀ y, y < im.h → nonOpaqueInRow im y = 0 := by
    intro y hy
    simp only [nonOpaqueInRow, List.length_eq_zero]
    rw [List.filter_eq_nil]
    intro x hx
    have hxw : x < im.w := mem_sampleIdx (xStepOf_pos im.w) hx
    simp [halpha y hy x hxw]
  refine ⟨hrow, ?_⟩
  have hcount : corruptRowsCount im = 0 := by
    simp only [corruptRowsCount, List.length_eq_zero]
    rw [List.filter_eq_nil]
    intro y hy
    have hyh : y < im.h := mem_sampleIdx (rowStepOf_pos im.h) hy
    simp [rowCorrupt, hrow y hyh]
  have hrows : 0 < (sampledRows im).length :=
    sampleIdx_length_pos hh (rowStepOf_pos im.h)
  simp only [CheckPageCorruption]
  rw [if_neg (by omega), if_neg (by omega)]
  rw [hcount]
  norm_num

/-- C7: the corruption detector returns `corrupt = false` on every
well-formed image whose (uniform, fully-opaque) pixels all carry alpha 255;
and whenever at least 20% of the sampled rows are alpha-corrupt (more than
10% of their sampled pixels have alpha ≠ 255, under the row/pixel sampling
strides), it returns `corrupt = true` with `CorruptRowFraction ≥ 1/10`. -/
theorem C7_corruption_detector :
    (∀ im : RGBAImg, im.stride = 4 * im.w → im.pix.length = im.stride * im.h →
      0 < im.w → 0 < im.h →
      (∀ i, i < im.pix.length → i % 4 = 3 → im.pix.getD i 0 = 255) →
      (CheckPageCorruption im).corrupt = false) ∧
    (∀ im : RGBAImg, 0 < im.w → 0 < im.h →
      (sampledRows im).length ≤ 5 * corruptRowsCount im →
      (CheckPageCorruption im).corrupt = true ∧
      (1 : ℚ) / 10 ≤ (CheckPageCorruption im).corruptRowFraction) := by
  constructor
  · intro im hstride hlen hw hh hop
    exact (opaque_analysis im hstride hlen hw hh hop).2
  · intro im hw hh hcount
    have hrows : 0 < (sampledRows im).length :=
      sampleIdx_length_pos hh (rowStepOf_pos im.h)
    have hc1 : 1 ≤ corruptRowsCount im := by omega
    have hrq : (0 : ℚ) < ((sampledRows im).length : ℚ) := by exact_mod_cast hrows
    have hcq : ((sampledRows im).length : ℚ) ≤ 5 * (corruptRowsCount im : ℚ) := by
      exact_mod_cast hcount
    have hc1q : (1 : ℚ) ≤ (corruptRowsCount im : ℚ) := by exact_mod_cast hc1
    have hgt : (1 : ℚ) / 20 <
        (corruptRowsCount im : ℚ) / ((sampledRows im).length : ℚ) := by
      rw [div_lt_div_iff (by norm_num) hrq]
      nlinarith
    simp only [CheckPageCorruption]
    rw [if_neg (by omega), if_neg (by omega), if_pos hgt]
    refine ⟨rfl, ?_⟩
    show (1 : ℚ) / 10 ≤ (corruptRowsCount im : ℚ) / ((sampledRows im).length : ℚ)
    rw [div_le_div_iff (by norm_num) hrq]
    nlinarith

/-- A 2×2 buffer of uniform opaque pixels. -/
def opaqueIm : RGBAImg :=
  ⟨2, 2, 8, [9, 9, 9, 255, 9, 9, 9, 255, 9, 9, 9, 255, 9, 9, 9, 255]⟩

/-- A 1×5 buffer whose first row (20% of rows) is fully non-opaque. -/
def corruptIm : RGBAImg :=
  ⟨1, 5, 4, [0, 0, 0, 7, 0, 0, 0, 255, 0, 0, 0, 255, 0, 0, 0, 255, 0, 0, 0, 255]⟩

theorem C7_corruption_detector_witness :
    ((CheckPageCorruption opaqueIm).corrupt = false) ∧
    ((CheckPageCorruption corruptIm).corrupt = true ∧
      (1 : ℚ) / 10 ≤ (CheckPageCorruption corruptIm).corruptRowFraction) :=
  ⟨C7_corruption_detector.1 opaqueIm (by decide) (by decide) (by decide) (by decide)
      (by decide),
    C7_corruption_detector.2 corruptIm (by decide) (by decide) (by decide)⟩

lemma fixAlphaFrom_length : ∀ (k : Nat) (l : List Nat),
    (fixAlphaFrom k l).length = l.length := by
  intro k l
  induction l generalizing k with
  | nil => rfl
  | cons b rest ih => simp [fixAlphaFrom, ih]

lemma fixAlphaFrom_getD : ∀ (l : List Nat) (k i : Nat), i < l.length →
    (fixAlphaFrom k l).getD i 0 =
      if (k + i) % 4 = 3 then 255 else l.getD i 0 := by
  intro l
  induction l with
  | nil => intro k i hi; simp at hi
  | cons b rest ih =>
    intro k i hi
    cases i with
    | zero => simp [fixAlphaFrom]
    | succ j =>
      have hj : j < rest.length := by simpa using hi
      have := ih (k + 1) j hj
      rw [show k + (j + 1) = k + 1 + j by omega]
      simpa [fixAlphaFrom] using this

/-- C10: the page images `RenderPDF` returns are built from a fresh copy of
the PDFium buffer in which every alpha byte has been forced to 255; on any
such page the detector samples zero non-opaque pixels and reports
`corrupt = false`. -/
theorem C10_renderPDF_alphaForced :
    (∀ (srcPix : List Nat) (stride w h : Nat),
      (renderedPDFPage srcPix stride w h).pix.length = srcPix.length ∧
      (∀ i, i < srcPix.length → i % 4 = 3 →
        (renderedPDFPage srcPix stride w h).pix.getD i 0 = 255)) ∧
    (∀ (srcPix : List Nat) (w h : Nat),
      srcPix.length = 4 * w * h → 0 < w → 0 < h →
      (∀ y, y < h → nonOpaqueInRow (renderedPDFPage srcPix (4 * w) w h) y = 0) ∧
      (CheckPageCorruption (renderedPDFPage srcPix (4 * w) w h)).corrupt = false) := by
  have hlen : ∀ (srcPix : List Nat), (fixAlpha srcPix).length = srcPix.length :=
    fun srcPix => fixAlphaFrom_length 0 srcPix
  have hget : ∀ (srcPix : List Nat) (i : Nat), i < srcPix.length → i % 4 = 3 →
      (fixAlpha srcPix).getD i 0 = 255 := by
    intro srcPix i hi h4
    rw [fixAlpha, fixAlphaFrom_getD srcPix 0 i hi]
    simp [h4]
  constructor
  · intro srcPix stride w h
    exact ⟨hlen srcPix, fun i hi h4 => hget srcPix i hi h4⟩
  · intro srcPix w h hl hw hh
    have hop : ∀ i, i < (renderedPDFPage srcPix (4 * w) w h).pix.length →
        i % 4 = 3 → (renderedPDFPage srcPix (4 * w) w h).pix.getD i 0 = 255 := by
      intro i hi h4
      exact hget srcPix i (by simpa [renderedPDFPage, hlen srcPix] using hi) h4
    exact opaque_analysis (renderedPDFPage srcPix (4 * w) w h) rfl
      (by simp [renderedPDFPage, hlen srcPix, hl]) hw hh hop

theorem C10_renderPDF_alphaForced_witness :
    ((renderedPDFPage [9, 9, 9, 0, 9, 9, 9, 0] 8 2 1).pix.getD 3 0 = 255 ∧
      (renderedPDFPage [9, 9, 9, 0, 9, 9, 9, 0] 8 2 1).pix.length = 8) ∧
    (CheckPageCorruption (renderedPDFPage [9, 9, 9, 0, 9, 9, 9, 0] (4 * 2) 2 1)).corrupt
      = false :=
  ⟨⟨(C10_renderPDF_alphaForced.1 [9, 9, 9, 0, 9, 9, 9, 0] 8 2 1).2 3 (by decide) (by decide),
      (C10_renderPDF_alphaForced.1 [9, 9, 9, 0, 9, 9, 9, 0] 8 2 1).1⟩,
    (C10_renderPDF_alphaForced.2 [9, 9, 9, 0, 9, 9, 9, 0] 2 1 (by decide) (by decide)
      (by decide)).2⟩

/-- The extension set of thumbnail.go's dispatch. -/
def supportedExts : List String := [".pdf", ".tif", ".tiff", ".jpg", ".jpeg", ".png"]

/-- C9 counterexample: for the path "doc.XYZ" the raw extension is ".XYZ"
but the failure message carries the lowercased ".xyz", so the error does
not carry the raw extension string. -/
theorem C9_counterexample :
    goExt "doc.XYZ" = ".XYZ" ∧
    renderPages okDecoders "doc.XYZ" = .error "unsupported file format: .xyz" ∧
    "unsupported file format: .xyz" ≠ "unsupported file format: .XYZ" := by
  refine ⟨by decide, ?_, by decide⟩
  have hext : goToLower (goExt "doc.XYZ") = ".xyz" := by decide
  have happ : ("unsupported file format: " ++ ".xyz" : String) =
      "unsupported file format: .xyz" := by decide
  simp [renderPages, hext, happ]

/-- C9 (amended): `renderPages` dispatches on the lowercased extension over
exactly {.pdf, .tif, .tiff, .jpg, .jpeg, .png}; any other extension (in any
letter case) fails with an error carrying the lowercased — not the raw —
extension string. -/
theorem C9_dispatch (d : Decoders) (path : String) :
    (goToLower (goExt path) ∉ supportedExts →
      renderPages d path =
        .error ("unsupported file format: " ++ goToLower (goExt path))) ∧
    (goToLower (goExt path) = ".pdf" → renderPages d path = renderPDFPages d path) ∧
    ((goToLower (goExt path) = ".tif" ∨ goToLower (goExt path) = ".tiff") →
      renderPages d path = renderTIFFPages d path) ∧
    ((goToLower (goExt path) = ".jpg" ∨ goToLower (goExt path) = ".jpeg" ∨
        goToLower (goExt path) = ".png") →
      renderPages d path =
        match renderImagePage d path with
        | .error e => .error e
        | .ok img => .ok [img]) := by
  refine ⟨fun hn => ?_, fun hp => ?_, fun ht => ?_, fun hi => ?_⟩
  · simp only [renderPages]
    rw [if_neg (fun h => hn (by rw [h]; decide)),
      if_neg (fun h => hn (by rcases h with h | h <;> rw [h] <;> decide)),
      if_neg (fun h => hn (by rcases h with h | h | h <;> rw [h] <;> decide))]
  · simp [renderPages, hp]
  · rcases ht with h | h <;> simp [renderPages, h]
  · rcases hi with h | h | h <;> simp [renderPages, h]

theorem C9_dispatch_witness :
    goToLower (goExt "a.BMP") ∉ supportedExts ∧
    renderPages okDecoders "a.BMP" =
      .error ("unsupported file format: " ++ goToLower (goExt "a.BMP")) ∧
    goToLower (goExt "b.PDF") = ".pdf" ∧
    renderPages okDecoders "b.PDF" = renderPDFPages okDecoders "b.PDF" :=
  ⟨by decide, (C9_dispatch okDecoders "a.BMP").1 (by decide), by decide,
    (C9_dispatch okDecoders "b.PDF").2.1 (by decide)⟩

end Thumbs
